import Mathlib

/-!
Verification of the VectraEdge dual-transport client and its concurrent
benchmark harness, as a shallow embedding of `src/python/vectra/client.py`
and `src/scripts/performance_test.py`.
-/

namespace Vectra

/-- JSON-like values, modelling the decoded bodies that `requests`'s
`response.json()` produces and that the client passes around.  Numbers are
modelled as finite decimals `m / 10 ^ d`, the form in which Python prints
and reads back the numeric fields appearing in this code base. -/
inductive JVal where
  | null : JVal
  | str (s : String) : JVal
  | num (m : Int) (d : Nat) : JVal
  | arr (xs : List JVal) : JVal
  | obj (fields : List (String × JVal)) : JVal

/-- Dictionary lookup on a JSON object, modelling Python's `dict.get`:
the first binding of the key, if any. -/
def jget (v : JVal) (k : String) : Option JVal :=
  match v with
  | .obj fields => fields.lookup k
  | _ => none

/-- An HTTP request as issued through `requests.post` / `requests.get`:
method, URL, optional JSON body, and the per-call timeout in seconds. -/
structure HttpRequest where
  isPost : Bool
  url : String
  body : Option JVal
  timeoutSec : Nat

/-- An HTTP response: status code plus the JSON body, where `none` models a
body on which `response.json()` fails to decode. -/
structure HttpResponse where
  status : Nat
  jsonBody : Option JVal

/-- The network environment: each issued request either yields a response or
raises a `requests.exceptions.RequestException` carrying a message
(connection refused, timeout, and so on). -/
abbrev Http := HttpRequest → Except String HttpResponse

/-- `response.raise_for_status()`: raises an `HTTPError` for a 4xx client
error or a 5xx server error, and is a no-op otherwise. -/
def raiseForStatus (r : HttpResponse) : Except String Unit :=
  if 400 ≤ r.status ∧ r.status < 500 then
    .error ("Client Error for status " ++ toString r.status)
  else if 500 ≤ r.status ∧ r.status < 600 then
    .error ("Server Error for status " ++ toString r.status)
  else .ok ()

/-- `response.json()`: the decoded body, raising a decode error (itself a
`RequestException`) when the body is not valid JSON. -/
def HttpResponse.json (r : HttpResponse) : Except String JVal :=
  match r.jsonBody with
  | some v => .ok v
  | none => .error "Invalid JSON in response body"

/-- A stream subscription handle as built by `subscribe_stream`
(`MockStreamSubscription` in the source): the `id` and `status` fields store
whatever values the acknowledgement payload carried. -/
structure Subscription where
  id : JVal
  topic : String
  status : JVal

/-- A vector index handle (`MockVectorIndex` in the source). -/
structure VectorIndex where
  table_name : String
  column_name : String
deriving DecidableEq

/-- The optional Rust (embedded) transport: one method per client operation
that dispatches on `use_rust`.  `health_check` has no counterpart here
because the source's `health_check` never consults the Rust client. -/
structure RustClient where
  execute_query : String → Except String JVal
  vector_search : String → Int → Except String JVal
  subscribe_stream : String → Except String Subscription
  create_table : String → String → Except String JVal
  insert_data : String → JVal → Except String JVal
  create_vector_index : String → String → Except String VectorIndex
  list_tables : Except String (List String)
  get_table_info : String → Except String JVal
  get_stats : Except String JVal

/-- The client state set up by `VectraClient.__init__`. -/
structure VectraClient where
  host : String
  port : Int
  use_rust : Bool
  rust_client : Option RustClient

/-- `self.base_url = f"http://{host}:{port}"`. -/
def VectraClient.base_url (c : VectraClient) : String :=
  "http://" ++ c.host ++ ":" ++ toString c.port

/-- `VectraClient.__init__`: stores the configuration and constructs the
Rust client exactly when `use_rust` is set.  `mkRust` models the
`RustVectraClient(host, port)` constructor. -/
def connect (mkRust : String → Int → RustClient) (host : String) (port : Int)
    (use_rust : Bool) : VectraClient :=
  { host := host, port := port, use_rust := use_rust,
    rust_client := if use_rust then some (mkRust host port) else none }

/-- The request issued by the HTTP branch of `execute_query`:
`POST {base_url}/query` with body `{"query": sql}` and a 30 second timeout. -/
def queryRequest (c : VectraClient) (sql : String) : HttpRequest :=
  { isPost := true, url := c.base_url ++ "/query",
    body := some (.obj [("query", .str sql)]), timeoutSec := 30 }

/-- `VectraClient.execute_query`: dispatches to the Rust client when
`use_rust` is set and the Rust client is present, otherwise posts to
`/query`; any `RequestException` is re-raised as
`RuntimeError("Failed to execute query: <cause>")`. -/
def execute_query (c : VectraClient) (http : Http) (sql : String) :
    Except String JVal :=
  match c.use_rust, c.rust_client with
  | true, some rb => rb.execute_query sql
  | _, _ =>
    match http (queryRequest c sql) with
    | .error e => .error ("Failed to execute query: " ++ e)
    | .ok resp =>
      match raiseForStatus resp with
      | .error e => .error ("Failed to execute query: " ++ e)
      | .ok _ =>
        match resp.json with
        | .error e => .error ("Failed to execute query: " ++ e)
        | .ok v => .ok v

/-- The request issued by the HTTP branch of `vector_search`. -/
def vectorSearchRequest (c : VectraClient) (query : String) (limit : Int) :
    HttpRequest :=
  { isPost := true, url := c.base_url ++ "/vector/search",
    body := some (.obj [("query", .str query), ("limit", .num limit 0)]),
    timeoutSec := 30 }

/-- `VectraClient.vector_search`. -/
def vector_search (c : VectraClient) (http : Http) (query : String)
    (limit : Int) : Except String JVal :=
  match c.use_rust, c.rust_client with
  | true, some rb => rb.vector_search query limit
  | _, _ =>
    match http (vectorSearchRequest c query limit) with
    | .error e => .error ("Failed to perform vector search: " ++ e)
    | .ok resp =>
      match raiseForStatus resp with
      | .error e => .error ("Failed to perform vector search: " ++ e)
      | .ok _ =>
        match resp.json with
        | .error e => .error ("Failed to perform vector search: " ++ e)
        | .ok v => .ok v

/-- The request issued by the HTTP branch of `subscribe_stream`. -/
def subscribeRequest (c : VectraClient) (topic : String) : HttpRequest :=
  { isPost := true, url := c.base_url ++ "/stream/subscribe",
    body := some (.obj [("topic", .str topic)]), timeoutSec := 30 }

/-- `VectraClient.subscribe_stream`: on the HTTP branch, builds a
`MockStreamSubscription` whose `id` is `data.get("subscription_id",
"unknown")`, whose `topic` is the requested topic and whose `status` is
`data.get("status", "unknown")`. -/
def subscribe_stream (c : VectraClient) (http : Http) (topic : String) :
    Except String Subscription :=
  match c.use_rust, c.rust_client with
  | true, some rb => rb.subscribe_stream topic
  | _, _ =>
    match http (subscribeRequest c topic) with
    | .error e => .error ("Failed to subscribe to stream: " ++ e)
    | .ok resp =>
      match raiseForStatus resp with
      | .error e => .error ("Failed to subscribe to stream: " ++ e)
      | .ok _ =>
        match resp.json with
        | .error e => .error ("Failed to subscribe to stream: " ++ e)
        | .ok data =>
          .ok { id := (jget data "subscription_id").getD (.str "unknown"),
                topic := topic,
                status := (jget data "status").getD (.str "unknown") }

/-- `VectraClient.create_table`: Rust dispatch, else a log line and an
implicit `None` return. -/
def create_table (c : VectraClient) (name : String) (schema : String) :
    Except String JVal :=
  match c.use_rust, c.rust_client with
  | true, some rb => rb.create_table name schema
  | _, _ => .ok .null

/-- `VectraClient.insert_data`: Rust dispatch, else a log line and an
implicit `None` return. -/
def insert_data (c : VectraClient) (table : String) (data : JVal) :
    Except String JVal :=
  match c.use_rust, c.rust_client with
  | true, some rb => rb.insert_data table data
  | _, _ => .ok .null

/-- `VectraClient.create_vector_index`: Rust dispatch, else a log line and a
`MockVectorIndex(table, column)`. -/
def create_vector_index (c : VectraClient) (table : String) (column : String) :
    Except String VectorIndex :=
  match c.use_rust, c.rust_client with
  | true, some rb => rb.create_vector_index table column
  | _, _ => .ok { table_name := table, column_name := column }

/-- `VectraClient.list_tables`: Rust dispatch, else fixed mock data. -/
def list_tables (c : VectraClient) : Except String (List String) :=
  match c.use_rust, c.rust_client with
  | true, some rb => rb.list_tables
  | _, _ => .ok ["docs", "users", "products"]

/-- `VectraClient.get_table_info`: Rust dispatch, else fixed mock data. -/
def get_table_info (c : VectraClient) (table : String) : Except String JVal :=
  match c.use_rust, c.rust_client with
  | true, some rb => rb.get_table_info table
  | _, _ => .ok (.obj [("name", .str table), ("rows", .num 1000 0),
      ("size_bytes", .num 1024000 0),
      ("created_at", .str "2024-01-01T00:00:00Z")])

/-- `VectraClient.get_stats`: Rust dispatch, else fixed mock data. -/
def get_stats (c : VectraClient) : Except String JVal :=
  match c.use_rust, c.rust_client with
  | true, some rb => rb.get_stats
  | _, _ => .ok (.obj [("total_tables", .num 3 0), ("total_rows", .num 5000 0),
      ("total_size_bytes", .num 5120000 0)])

/-- The request issued by `health_check`: `GET {base_url}/health` with a
10 second timeout.  Unlike every other operation, `health_check` has no
`use_rust` branch in the source. -/
def healthRequest (c : VectraClient) : HttpRequest :=
  { isPost := false, url := c.base_url ++ "/health", body := none,
    timeoutSec := 10 }

/-- `VectraClient.health_check`: always the HTTP call, with failures
re-raised as `RuntimeError("Health check failed: <cause>")`. -/
def health_check (c : VectraClient) (http : Http) : Except String JVal :=
  match http (healthRequest c) with
  | .error e => .error ("Health check failed: " ++ e)
  | .ok resp =>
    match raiseForStatus resp with
    | .error e => .error ("Health check failed: " ++ e)
    | .ok _ =>
      match resp.json with
      | .error e => .error ("Health check failed: " ++ e)
      | .ok v => .ok v

/-- Python's `limit or 10` on an optional integer argument: the default
applies when the argument is `None` or `0` (falsy), and only then. -/
def pyOrInt (limit : Option Int) (d : Int) : Int :=
  match limit with
  | none => d
  | some n => if n = 0 then d else n

/-- `MockVectorIndex.search`: ignores the query vector and returns the fixed
two-element result list together with the effective limit. -/
def MockVectorIndex.search (_idx : VectorIndex) (_query_vector : List ℚ)
    (limit : Option Int) : JVal :=
  let l := pyOrInt limit 10
  .obj [("results", .arr [
      .obj [("id", .num 1 0), ("score", .num 95 2),
            ("metadata", .obj [("text", .str "Sample result")])],
      .obj [("id", .num 2 0), ("score", .num 87 2),
            ("metadata", .obj [("text", .str "Another result")])]]),
    ("limit", .num l 0)]

end Vectra

namespace PerfTest

/-- A value stored in a benchmark result record: a number (Python float or
int, modelled as a rational) or a string. -/
inductive RVal where
  | q (x : ℚ) : RVal
  | s (v : String) : RVal
deriving DecidableEq

/-- One named benchmark record: the dictionary stored under one key of
`self.results`. -/
abbrev Record := List (String × RVal)

/-- The accumulated `self.results` mapping.  Phase keys are pairwise
distinct, so appending fresh entries models Python dict insertion. -/
abbrev Results := List (String × Record)

/-- The operation a concurrency-phase worker performs, with its arguments as
written at the call site in `worker`. -/
inductive OpCall where
  | executeQuery (sql : String) : OpCall
  | vectorSearch (query : String) (limit : Int) : OpCall
  | getStats : OpCall
deriving DecidableEq

/-- The operation of worker `worker_id`, chosen by `worker_id % 3` exactly
as in `worker` inside `test_concurrent_operations`. -/
def workerCall (worker_id : Nat) : OpCall :=
  if worker_id % 3 = 0 then .executeQuery "SELECT * FROM perf_test_table LIMIT 1"
  else if worker_id % 3 = 1 then .vectorSearch "test" 5
  else .getStats

/-- The measurement environment: for each timed client call the elapsed
wall-clock milliseconds and whether the call succeeded, per phase and loop
index; for the concurrency phase, per-call success, the thread interleaving
of the counter updates, and the batch elapsed time in seconds. -/
structure PerfEnv where
  healthOut : Nat → ℚ × Bool
  tableOut : Nat → ℚ × Bool
  insertOut : Int → Nat → ℚ × Bool
  queryOut : Nat → Nat → ℚ × Bool
  vsearchOut : Nat → Nat → ℚ × Bool
  concOpOk : Nat → Nat → OpCall → Bool
  concSched : Nat → List Nat
  concElapsed : Nat → ℚ
  statsOut : Nat → ℚ × Bool
  largeOut : Nat → ℚ × Bool

/-- The latencies of the successful calls among a list of outcomes: failed
calls are caught by the per-operation `except` and contribute no sample. -/
def successes (outs : List (ℚ × Bool)) : List ℚ :=
  (outs.filter (fun o => o.2)).map (fun o => o.1)

/-- `statistics.mean`; every use in the source is guarded by a non-emptiness
check. -/
def mean (xs : List ℚ) : ℚ := xs.sum / (xs.length : ℚ)

/-- Python division: raises `ZeroDivisionError` on a zero divisor instead of
returning a value. -/
def pydiv (a b : ℚ) : Except String ℚ :=
  if b = 0 then .error "ZeroDivisionError: float division by zero"
  else .ok (a / b)

/-- A Python call through an arity check: passing a number of positional
arguments different from the method's parameter count raises `TypeError`
before the body runs; inside the benchmark loops that exception is caught
like any other failure, so no latency sample is recorded. -/
def checkedCall (params args : Nat) (out : ℚ × Bool) : ℚ × Bool :=
  if args = params then out else (0, false)

/-- `client.py`: `insert_data(self, table, data)` takes two positional
arguments besides `self`. -/
def insertDataParamCount : Nat := 2

/-- `performance_test.py` (insertion, memory and stress phases) invokes
`insert_data` with three positional arguments `(table, key, data)`. -/
def insertCallArgCount : Nat := 3

/-- `test_connection_performance`: ten timed `health_check` calls, recording
average, minimum and maximum latency when at least one succeeded. -/
def connectionPhase (env : PerfEnv) : Except String Results :=
  let times := successes ((List.range 10).map env.healthOut)
  if times.isEmpty then .ok []
  else .ok [("connection",
    [("avg_time_ms", .q (mean times)),
     ("min_time_ms", .q ((times.min?).getD 0)),
     ("max_time_ms", .q ((times.max?).getD 0)),
     ("samples", .q (times.length : ℚ))])]

/-- `test_table_operations`: five timed `create_table` calls. -/
def tablePhase (env : PerfEnv) : Except String Results :=
  let times := successes ((List.range 5).map env.tableOut)
  if times.isEmpty then .ok []
  else .ok [("table_creation",
    [("avg_time_ms", .q (mean times)),
     ("samples", .q (times.length : ℚ))])]

/-- The fixed payload sizes of the insertion phase, in bytes. -/
def data_sizes : List Int := [100, 1000, 10000]

/-- An insertion-phase payload. -/
structure TestData where
  id : Int
  data : String
  timestamp : Option String
deriving DecidableEq

/-- `PerformanceTester._generate_test_data`: pads the `data` string to
`size_bytes - 50` characters, or returns the minimal payload
`{"id": 1, "data": "small"}` when that target is non-positive. -/
def generateTestData (size_bytes : Int) : TestData :=
  let target_size := size_bytes - 50
  if target_size ≤ 0 then { id := 1, data := "small", timestamp := none }
  else { id := 1, data := String.mk (List.replicate target_size.toNat 'x'),
         timestamp := some "2024-01-01T00:00:00Z" }

/-- One size of `test_data_insertion_performance`: the generated payload is
inserted ten times through the three-argument `insert_data` call; a record
with average latency and derived throughput is stored only when at least
one call succeeded. -/
def insertSize (env : PerfEnv) (size : Int) : Except String Results :=
  let _payload := generateTestData size
  let outs := (List.range 10).map (fun i =>
    checkedCall insertDataParamCount insertCallArgCount (env.insertOut size i))
  let times := successes outs
  if times.isEmpty then .ok []
  else do
    let avg := mean times
    let throughput ← pydiv ((size : ℚ) / 1024) (avg / 1000)
    .ok [("data_insertion_" ++ toString size ++ "b",
      [("avg_time_ms", .q avg),
       ("throughput_kbs", .q throughput),
       ("samples", .q (times.length : ℚ))])]

/-- `test_data_insertion_performance` over all fixed sizes. -/
def insertionPhase (env : PerfEnv) : Except String Results := do
  let rs ← data_sizes.mapM (insertSize env)
  .ok rs.flatten

/-- The fixed query set of `test_query_performance`. -/
def queries : List String :=
  ["SELECT * FROM perf_test_table LIMIT 10",
   "SELECT COUNT(*) FROM perf_test_table",
   "SELECT * FROM perf_test_table WHERE id > 5"]

/-- `test_query_performance`: each query executed ten times. -/
def queryPhase (env : PerfEnv) : Except String Results :=
  .ok (((List.range queries.length).map (fun i =>
    let times := successes ((List.range 10).map (env.queryOut i))
    if times.isEmpty then ([] : Results)
    else [("query_" ++ toString (i + 1),
      [("query", .s (queries.getD i "")),
       ("avg_time_ms", .q (mean times)),
       ("samples", .q (times.length : ℚ))])])).flatten)

/-- The fixed result limits of `test_vector_search_performance`. -/
def search_limits : List Nat := [5, 10, 20, 50]

/-- `test_vector_search_performance`: ten searches per limit. -/
def vsearchPhase (env : PerfEnv) : Except String Results :=
  .ok ((search_limits.map (fun limit =>
    let times := successes ((List.range 10).map (env.vsearchOut limit))
    if times.isEmpty then ([] : Results)
    else [("vector_search_" ++ toString limit,
      [("limit", .q (limit : ℚ)),
       ("avg_time_ms", .q (mean times)),
       ("samples", .q (times.length : ℚ))])])).flatten)

/-- The shared counter pair mutated by the concurrency-phase workers. -/
structure ConcState where
  completed : Nat
  failed : Nat
deriving DecidableEq

/-- One scheduled step of the unsynchronized `+= 1` on the shared counters.
Each worker's increment is two machine steps: its first scheduled occurrence
loads the shared counter into the worker's frame, its second stores the
incremented local value back.  `st.2` holds the loaded values of workers
whose store is still pending. -/
def concStep (succ : Nat → Bool) (st : ConcState × List (Nat × Nat))
    (w : Nat) : ConcState × List (Nat × Nat) :=
  match st.2.lookup w with
  | none =>
    let v := if succ w then st.1.completed else st.1.failed
    (st.1, (w, v) :: st.2)
  | some v =>
    if succ w then
      ({ st.1 with completed := v + 1 }, st.2.filter (fun p => p.1 ≠ w))
    else
      ({ st.1 with failed := v + 1 }, st.2.filter (fun p => p.1 ≠ w))

/-- Run the counter updates of all workers under a given interleaving of
their load and store steps. -/
def runSched (succ : Nat → Bool) (sched : List Nat) : ConcState :=
  (sched.foldl (concStep succ) (⟨0, 0⟩, [])).1

/-- The interleaving in which every worker's load is immediately followed by
its store: the behaviour of atomic increments, or equivalently of per-worker
results merged after join. -/
def serializedSched (L : Nat) : List Nat :=
  (List.range L).flatMap (fun i => [i, i])

/-- One concurrency level of `test_concurrent_operations`: worker `i`
performs the operation `workerCall i`; the counter updates run under the
environment's interleaving, and `throughput = completed / total_time`. -/
def concLevel (env : PerfEnv) (level : Nat) : Except String Results := do
  let succ := fun i => env.concOpOk level i (workerCall i)
  let st := runSched succ (env.concSched level)
  let total_time := env.concElapsed level
  let throughput ← pydiv (st.completed : ℚ) total_time
  .ok [("concurrent_" ++ toString level,
    [("concurrency_level", .q (level : ℚ)),
     ("total_time_s", .q total_time),
     ("completed_operations", .q (st.completed : ℚ)),
     ("failed_operations", .q (st.failed : ℚ)),
     ("throughput_ops_per_sec", .q throughput)])]

/-- The fixed concurrency levels. -/
def concurrency_levels : List Nat := [5, 10, 20]

/-- `test_concurrent_operations` over all levels. -/
def concurrencyPhase (env : PerfEnv) : Except String Results := do
  let rs ← concurrency_levels.mapM (concLevel env)
  .ok rs.flatten

/-- `test_memory_usage`: its inserts all fail inside one caught `try`
(the three-argument `insert_data` call), and the phase always records the
fixed descriptive summary. -/
def memoryPhase (_env : PerfEnv) : Except String Results :=
  .ok [("memory_usage",
    [("test_data_size_mb", .q 1), ("status", .s "completed")])]

/-- `test_stress_scenarios`: fifty rapid `get_stats` calls, then ten
insertions of one 100 KB payload through the three-argument call. -/
def stressPhase (env : PerfEnv) : Except String Results :=
  let rapid := successes ((List.range 50).map env.statsOut)
  let r1 : Results :=
    if rapid.isEmpty then []
    else [("stress_rapid_operations",
      [("avg_time_ms", .q (mean rapid)),
       ("samples", .q (rapid.length : ℚ))])]
  let large := successes ((List.range 10).map (fun i =>
    checkedCall insertDataParamCount insertCallArgCount (env.largeOut i)))
  let r2 : Results :=
    if large.isEmpty then []
    else [("stress_large_data",
      [("avg_time_ms", .q (mean large)),
       ("data_size_kb", .q 100),
       ("samples", .q (large.length : ℚ))])]
  .ok (r1 ++ r2)

/-- The fixed phase order of `run_all_tests`. -/
def phaseList : List (PerfEnv → Except String Results) :=
  [connectionPhase, tablePhase, insertionPhase, queryPhase, vsearchPhase,
   concurrencyPhase, memoryPhase, stressPhase]

/-- Run phases in order, mirroring `run_all_tests`: each phase's records are
appended to `self.results`; an exception escaping a phase is not caught
there, so it stops the remaining phases while the records accumulated so far
stay in memory. -/
def runPhases (env : PerfEnv) : List (PerfEnv → Except String Results) →
    Results × Option String
  | [] => ([], none)
  | p :: ps =>
    match p env with
    | .error e => ([], some e)
    | .ok r =>
      let rest := runPhases env ps
      (r ++ rest.1, rest.2)

/-- `PerformanceTester.run_all_tests`: the accumulated results together with
the exception that escaped, if any. -/
def run_all_tests (env : PerfEnv) : Results × Option String :=
  runPhases env phaseList

/-- `main`: runs all tests and calls `save_results` only when no exception
escaped; on an exception it prints the error and exits with status 1, so
`some r` is the result set written to the output file and `none` means no
file was written. -/
def main (env : PerfEnv) : Option Results :=
  match run_all_tests env with
  | (_, some _) => none
  | (r, none) => some r

end PerfTest

namespace Store

/-- A primitive JSON value stored in a benchmark result field: a number in
the finite-decimal form `m / 10 ^ d` in which Python prints floats and
ints, or a string. -/
inductive Prim where
  | num (m : Int) (d : Nat) : Prim
  | str (s : List Char) : Prim
deriving DecidableEq

/-- One serialized benchmark record: field name to primitive value. -/
abbrev BRes := List (List Char × Prim)

/-- The persisted result set: result name to record, as passed to
`json.dump` by `save_results`. -/
abbrev ResultSet := List (List Char × BRes)

/-- The decimal digit character for `n < 10`. -/
def digitChar (n : Nat) : Char := Char.ofNat (48 + n)

/-- The decimal digit string of a natural number, most significant first. -/
def natDigits (n : Nat) : List Char :=
  if _h : n < 10 then [digitChar n]
  else natDigits (n / 10) ++ [digitChar (n % 10)]
decreasing_by exact Nat.div_lt_self (by omega) (by omega)

/-- Print the decimal `m / 10 ^ d` the way Python serializes it: an
optional sign, the integer digits, and for `d ≠ 0` a point followed by
exactly `d` fractional digits (zero-padded on the left as needed). -/
def printNum (m : Int) (d : Nat) : List Char :=
  let ds0 := natDigits m.natAbs
  let ds := List.replicate (d + 1 - ds0.length) '0' ++ ds0
  (if m < 0 then ['-'] else []) ++ ds.take (ds.length - d) ++
    (if d = 0 then [] else '.' :: ds.drop (ds.length - d))

/-- Print a JSON string literal.  `json.dump` additionally escapes quotes,
backslashes and control characters; the result names and fields this store
holds contain none, and the well-formedness predicate below restricts the
round-trip statement to that domain. -/
def printString (s : List Char) : List Char := '"' :: s ++ ['"']

/-- Print a primitive value. -/
def printPrim : Prim → List Char
  | .num m d => printNum m d
  | .str s => printString s

/-- Comma-separated concatenation, as between JSON object members. -/
def joinComma : List (List Char) → List Char
  | [] => []
  | [x] => x
  | x :: y :: xs => x ++ ',' :: joinComma (y :: xs)

/-- The members of one serialized record. -/
def printFields (fs : BRes) : List Char :=
  joinComma (fs.map (fun f => printString f.1 ++ ':' :: printPrim f.2))

/-- One serialized record object. -/
def printObj (fs : BRes) : List Char := '{' :: printFields fs ++ ['}']

/-- The members of the top-level object. -/
def printEntries (st : ResultSet) : List Char :=
  joinComma (st.map (fun e => printString e.1 ++ ':' :: printObj e.2))

/-- The whole serialized document. -/
def printStore (st : ResultSet) : List Char := '{' :: printEntries st ++ ['}']

/-- `PerformanceTester.save_results`: `json.dump(self.results, f, indent=2)`.
The `indent` option only inserts whitespace, which `json.load` skips, so the
embedding emits the compact form of the same document. -/
def save_results (st : ResultSet) : List Char := printStore st

/-- JSON insignificant whitespace. -/
def isWsChar (c : Char) : Bool := c == ' ' || c == '\n' || c == '\t' || c == '\r'

/-- Skip insignificant whitespace, as `json.load` does between tokens. -/
def skipWs (cs : List Char) : List Char := cs.dropWhile isWsChar

/-- ASCII decimal digit test. -/
def isDigitChar (c : Char) : Bool := decide (48 ≤ c.toNat ∧ c.toNat ≤ 57)

/-- The value of a digit character. -/
def digitVal (c : Char) : Nat := c.toNat - 48

/-- The natural number denoted by a digit string. -/
def digitsToNat (ds : List Char) : Nat :=
  ds.foldl (fun a c => a * 10 + digitVal c) 0

/-- Read a string literal: an opening quote, the characters up to the next
quote, and that closing quote. -/
def parseString (cs : List Char) : Option (List Char × List Char) :=
  if cs.head? = some '"' then
    let p := cs.tail.span (fun c => c != '"')
    if p.2.head? = some '"' then some (p.1, p.2.tail) else none
  else none

/-- Read a JSON number in the decimal forms the printer emits: an optional
sign, at least one integer digit, and an optional point followed by at least
one fractional digit. -/
def parseNum (cs : List Char) : Option ((Int × Nat) × List Char) :=
  let neg := cs.head? = some '-'
  let cs1 := if cs.head? = some '-' then cs.tail else cs
  let ip := cs1.span isDigitChar
  if ip.1.isEmpty then none
  else
    let mkInt : Nat → Int := fun n => if neg then -(n : Int) else (n : Int)
    if ip.2.head? = some '.' then
      let fp := ip.2.tail.span isDigitChar
      if fp.1.isEmpty then none
      else some ((mkInt (digitsToNat (ip.1 ++ fp.1)), fp.1.length), fp.2)
    else some ((mkInt (digitsToNat ip.1), 0), ip.2)

/-- Read a primitive value, dispatching on its first character. -/
def parsePrim (cs : List Char) : Option (Prim × List Char) :=
  if cs.head? = some '"' then
    (parseString cs).map (fun r => (Prim.str r.1, r.2))
  else
    match cs.head? with
    | some c =>
      if c = '-' ∨ isDigitChar c then
        (parseNum cs).map (fun r => (Prim.num r.1.1 r.1.2, r.2))
      else none
    | none => none

/-- Read the members of a record object, positioned after its `{`; consumes
the closing `}`. -/
def parseFieldsAux (fuel : Nat) (cs : List Char) : Option (BRes × List Char) :=
  match fuel with
  | 0 => none
  | fuel + 1 =>
    match parseString (skipWs cs) with
    | none => none
    | some (k, cs1) =>
      let cs1w := skipWs cs1
      if cs1w.head? = some ':' then
        match parsePrim (skipWs cs1w.tail) with
        | none => none
        | some (v, cs3) =>
          let cs3w := skipWs cs3
          if cs3w.head? = some ',' then
            match parseFieldsAux fuel cs3w.tail with
            | some (fs, cs5) => some ((k, v) :: fs, cs5)
            | none => none
          else if cs3w.head? = some '}' then some ([(k, v)], cs3w.tail)
          else none
      else none

/-- Read one record object. -/
def parseObj (fuel : Nat) (cs : List Char) : Option (BRes × List Char) :=
  let csw := skipWs cs
  if csw.head? = some '{' then
    let cs1 := csw.tail
    if (skipWs cs1).head? = some '}' then some ([], (skipWs cs1).tail)
    else parseFieldsAux fuel cs1
  else none

/-- Read the members of the top-level object, positioned after its `{`;
consumes the closing `}`. -/
def parseEntriesAux (fuel : Nat) (cs : List Char) :
    Option (ResultSet × List Char) :=
  match fuel with
  | 0 => none
  | fuel + 1 =>
    match parseString (skipWs cs) with
    | none => none
    | some (k, cs1) =>
      let cs1w := skipWs cs1
      if cs1w.head? = some ':' then
        match parseObj (fuel + 1) cs1w.tail with
        | none => none
        | some (v, cs3) =>
          let cs3w := skipWs cs3
          if cs3w.head? = some ',' then
            match parseEntriesAux fuel cs3w.tail with
            | some (es, cs5) => some ((k, v) :: es, cs5)
            | none => none
          else if cs3w.head? = some '}' then some ([(k, v)], cs3w.tail)
          else none
      else none

/-- Read the whole document object. -/
def parseStore (fuel : Nat) (cs : List Char) :
    Option (ResultSet × List Char) :=
  let csw := skipWs cs
  if csw.head? = some '{' then
    let cs1 := csw.tail
    if (skipWs cs1).head? = some '}' then some ([], (skipWs cs1).tail)
    else parseEntriesAux fuel cs1
  else none

/-- `json.load` on the persisted report: the document object followed only
by whitespace. -/
def load (cs : List Char) : Option ResultSet :=
  match parseStore (cs.length + 1) cs with
  | some (st, rest) => if (skipWs rest).isEmpty then some st else none
  | none => none

/-- Strings `json.dump` serializes without escapes: no quote, no backslash,
no control characters. -/
def okStr (s : List Char) : Bool :=
  s.all (fun c => c != '"' && c != '\\' && decide (32 ≤ c.toNat))

/-- Well-formed primitive value. -/
def okPrim : Prim → Bool
  | .num _ _ => true
  | .str s => okStr s

/-- Well-formed record. -/
def okFields (fs : BRes) : Bool := fs.all (fun f => okStr f.1 && okPrim f.2)

/-- Well-formed result set. -/
def okStore (st : ResultSet) : Bool :=
  st.all (fun e => okStr e.1 && okFields e.2)

end Store

namespace PerfTest

/-- A benchmark environment in which every client call succeeds in one
millisecond, every concurrency batch takes one second, and the counter
updates happen to run without interleaving. -/
def envAllGood : PerfEnv :=
  { healthOut := fun _ => (1, true), tableOut := fun _ => (1, true),
    insertOut := fun _ _ => (1, true), queryOut := fun _ _ => (1, true),
    vsearchOut := fun _ _ => (1, true), concOpOk := fun _ _ _ => true,
    concSched := fun lvl => serializedSched lvl, concElapsed := fun _ => 1,
    statsOut := fun _ => (1, true), largeOut := fun _ => (1, true) }

/-- The same environment except that the wall clock does not advance across
a concurrency batch, as with a coarse-grained `time.time`: `total_time`
is `0.0`. -/
def envZeroElapsed : PerfEnv := { envAllGood with concElapsed := fun _ => 0 }

/-- The environment `envAllGood` with a transport on which every
concurrency-phase call fails. -/
def envFail : PerfEnv := { envAllGood with concOpOk := fun _ _ _ => false }

/-- An interleaving of two workers in which both load the shared counter
before either stores: worker 0 loads, worker 1 loads, worker 0 stores,
worker 1 stores. -/
def raceSched2 : List Nat := [0, 1, 0, 1]

/-- An interleaving of ten workers in which workers 0 and 1 overlap as in
`raceSched2` and the rest run serialized. -/
def raceSched10 : List Nat :=
  [0, 1, 0, 1] ++ (List.range 8).flatMap (fun i => [i + 2, i + 2])

end PerfTest

namespace Store

/-- A concrete persisted result set used to instantiate the round-trip
statement. -/
def sampleStore : ResultSet :=
  [("connection".toList,
    [("avg_time_ms".toList, .num 123 1), ("samples".toList, .num 10 0)]),
   ("memory_usage".toList,
    [("test_data_size_mb".toList, .num 10 1),
     ("status".toList, .str "completed".toList)]),
   ("concurrent_10".toList, [])]

end Store


namespace Vectra

/-- C3: on the network transport, `execute_query` either returns the decoded
response payload or raises; it raises exactly when the HTTP call fails
(request exception, or a 4xx/5xx status rejected by `raise_for_status`, or
an undecodable body), and every failure message is
`"Failed to execute query: "` followed by the underlying cause. -/
theorem execute_query_contract (c : VectraClient) (http : Http)
    (sql : String) (hr : c.use_rust = false) :
    ((∃ v, execute_query c http sql = .ok v) ∨
      (∃ cause, execute_query c http sql =
        .error ("Failed to execute query: " ++ cause))) ∧
    (∀ v, execute_query c http sql = Except.ok v ↔
      (∃ r, http (queryRequest c sql) = .ok r ∧
        raiseForStatus r = .ok () ∧ r.jsonBody = some v)) ∧
    (∀ e, http (queryRequest c sql) = .error e →
      execute_query c http sql = .error ("Failed to execute query: " ++ e)) ∧
    (∀ r, http (queryRequest c sql) = .ok r → 400 ≤ r.status →
      r.status < 600 → ∃ cause,
        execute_query c http sql = .error ("Failed to execute query: " ++ cause)) := by
  obtain ⟨h0, p0, ur, rc⟩ := c
  replace hr : ur = false := hr
  subst hr
  rcases hres : http (queryRequest ⟨h0, p0, false, rc⟩ sql) with e | r
  · have hx : execute_query ⟨h0, p0, false, rc⟩ http sql =
        .error ("Failed to execute query: " ++ e) := by
      simp only [execute_query, hres]
    refine ⟨Or.inr ⟨e, hx⟩, ?_, ?_, ?_⟩
    · intro v
      rw [hx]
      constructor
      · intro h; exact (Except.noConfusion h)
      · rintro ⟨r, hr2, -, -⟩; exact (Except.noConfusion hr2)
    · intro e2 he2
      injection he2 with h
      subst h
      exact hx
    · intro r hr2; exact (Except.noConfusion hr2)
  · rcases hrs : raiseForStatus r with e2 | u
    · have hx : execute_query ⟨h0, p0, false, rc⟩ http sql =
          .error ("Failed to execute query: " ++ e2) := by
        simp only [execute_query, hres, hrs]
      refine ⟨Or.inr ⟨e2, hx⟩, ?_, ?_, ?_⟩
      · intro v
        rw [hx]
        constructor
        · intro h; exact (Except.noConfusion h)
        · rintro ⟨r2, hr2, hok, -⟩
          injection hr2 with h
          subst h
          rw [hrs] at hok
          exact (Except.noConfusion hok)
      · intro e3 he3; exact (Except.noConfusion he3)
      · intro r2 hr2 h4 h6
        exact ⟨e2, hx⟩
    · cases u
      rcases hjb : r.jsonBody with _ | v
      · have hx : execute_query ⟨h0, p0, false, rc⟩ http sql =
            .error ("Failed to execute query: " ++ "Invalid JSON in response body") := by
          simp only [execute_query, hres, hrs, HttpResponse.json, hjb]
        refine ⟨Or.inr ⟨_, hx⟩, ?_, ?_, ?_⟩
        · intro v
          rw [hx]
          constructor
          · intro h; exact (Except.noConfusion h)
          · rintro ⟨r2, hr2, -, hb⟩
            injection hr2 with h
            subst h
            rw [hjb] at hb
            exact (Option.noConfusion hb)
        · intro e3 he3; exact (Except.noConfusion he3)
        · intro r2 hr2 h4 h6
          injection hr2 with h
          subst h
          exfalso
          simp only [raiseForStatus] at hrs
          rcases Nat.lt_or_ge r.status 500 with h5 | h5
          · rw [if_pos ⟨h4, h5⟩] at hrs; exact (Except.noConfusion hrs)
          · rw [if_neg (by omega), if_pos ⟨h5, h6⟩] at hrs
            exact (Except.noConfusion hrs)
      · have hx : execute_query ⟨h0, p0, false, rc⟩ http sql = .ok v := by
          simp only [execute_query, hres, hrs, HttpResponse.json, hjb]
        refine ⟨Or.inl ⟨v, hx⟩, ?_, ?_, ?_⟩
        · intro v2
          rw [hx]
          constructor
          · intro h
            injection h with h
            subst h
            exact ⟨r, rfl, hrs, hjb⟩
          · rintro ⟨r2, hr2, -, hb⟩
            injection hr2 with h
            subst h
            rw [hjb] at hb
            injection hb with h
            rw [h]
        · intro e3 he3; exact (Except.noConfusion he3)
        · intro r2 hr2 h4 h6
          injection hr2 with h
          subst h
          exfalso
          simp only [raiseForStatus] at hrs
          rcases Nat.lt_or_ge r.status 500 with h5 | h5
          · rw [if_pos ⟨h4, h5⟩] at hrs; exact (Except.noConfusion hrs)
          · rw [if_neg (by omega), if_pos ⟨h5, h6⟩] at hrs
            exact (Except.noConfusion hrs)

/-- Witness: a client on the network transport whose HTTP layer raises a
connection error; `execute_query` fails with the documented message. -/
theorem execute_query_contract_witness :
    (⟨"localhost", 8080, false, none⟩ : VectraClient).use_rust = false ∧
    execute_query ⟨"localhost", 8080, false, none⟩
      (fun _ => .error "Connection refused") "SELECT * FROM test" =
      .error ("Failed to execute query: " ++ "Connection refused") := by
  refine ⟨rfl, ?_⟩
  exact (execute_query_contract ⟨"localhost", 8080, false, none⟩
    (fun _ => .error "Connection refused") "SELECT * FROM test" rfl).2.2.1
    "Connection refused" rfl

end Vectra

namespace Vectra

/-- C5: on the network transport, `subscribe_stream` builds the handle from
the acknowledgement payload — `id` from its `subscription_id` field, `topic`
from the requested topic, `status` from its `status` field — and on an HTTP
failure raises with the message `"Failed to subscribe to stream: "` followed
by the cause. -/
theorem subscribe_stream_contract (c : VectraClient) (http : Http)
    (topic sid stat : String) (hr : c.use_rust = false) :
    (∀ r body, http (subscribeRequest c topic) = .ok r →
      raiseForStatus r = .ok () → r.jsonBody = some body →
      jget body "subscription_id" = some (.str sid) →
      jget body "status" = some (.str stat) →
      subscribe_stream c http topic =
        .ok { id := .str sid, topic := topic, status := .str stat }) ∧
    (∀ e, http (subscribeRequest c topic) = .error e →
      subscribe_stream c http topic =
        .error ("Failed to subscribe to stream: " ++ e)) := by
  obtain ⟨h0, p0, ur, rc⟩ := c
  replace hr : ur = false := hr
  subst hr
  constructor
  · intro r body hres hrs hjb hid hstat
    simp only [subscribe_stream, hres, hrs, HttpResponse.json, hjb, hid, hstat,
      Option.getD_some]
  · intro e hres
    simp only [subscribe_stream, hres]

/-- Witness: the spec's example — acknowledging
`{subscription_id: "sub_123", status: "active"}` for topic `"topic_x"`
yields the handle `⟨"sub_123", "topic_x", "active"⟩`; a failing transport
raises with the documented message. -/
theorem subscribe_stream_contract_witness :
    subscribe_stream ⟨"localhost", 8080, false, none⟩
      (fun _ => .ok ⟨200, some (.obj [("subscription_id", .str "sub_123"),
        ("status", .str "active")])⟩) "topic_x" =
      .ok { id := .str "sub_123", topic := "topic_x", status := .str "active" } ∧
    subscribe_stream ⟨"localhost", 8080, false, none⟩
      (fun _ => .error "timeout") "topic_x" =
      .error ("Failed to subscribe to stream: " ++ "timeout") := by
  constructor
  · exact (subscribe_stream_contract ⟨"localhost", 8080, false, none⟩
      (fun _ => .ok ⟨200, some (.obj [("subscription_id", .str "sub_123"),
        ("status", .str "active")])⟩) "topic_x" "sub_123" "active" rfl).1
      ⟨200, some (.obj [("subscription_id", .str "sub_123"),
        ("status", .str "active")])⟩
      (.obj [("subscription_id", .str "sub_123"), ("status", .str "active")])
      rfl rfl rfl rfl rfl
  · exact (subscribe_stream_contract ⟨"localhost", 8080, false, none⟩
      (fun _ => .error "timeout") "topic_x" "sub_123" "active" rfl).2
      "timeout" rfl

/-- C7: `MockVectorIndex.search` defaults the limit to 10 when it is
omitted, echoes any explicit limit `n ≥ 1` in the payload's `limit` field,
and always returns the fixed non-empty two-element result list; with
`limit = 5` the `limit` field is exactly 5. -/
theorem index_search_limit (idx : VectorIndex) (qv : List ℚ) (n : Int)
    (hn : 1 ≤ n) :
    jget (MockVectorIndex.search idx qv none) "limit" = some (.num 10 0) ∧
    jget (MockVectorIndex.search idx qv (some n)) "limit" =
      some (.num n 0) ∧
    (∃ rs, jget (MockVectorIndex.search idx qv (some n)) "results" =
      some (.arr rs) ∧ rs.length = 2 ∧ 0 < rs.length) ∧
    jget (MockVectorIndex.search idx qv (some 5)) "limit" =
      some (.num 5 0) := by
  have hlim : ∀ lim, jget (MockVectorIndex.search idx qv lim) "limit" =
      some (.num (pyOrInt lim 10) 0) := fun _ => rfl
  have hres : ∀ lim, jget (MockVectorIndex.search idx qv lim) "results" =
      some (.arr [
        .obj [("id", .num 1 0), ("score", .num 95 2),
              ("metadata", .obj [("text", .str "Sample result")])],
        .obj [("id", .num 2 0), ("score", .num 87 2),
              ("metadata", .obj [("text", .str "Another result")])]]) :=
    fun _ => rfl
  refine ⟨hlim none, ?_, ⟨_, hres (some n), rfl, by simp⟩, hlim (some 5)⟩
  rw [hlim (some n)]
  simp only [pyOrInt, if_neg (by omega : ¬ n = 0)]

/-- Witness: searching with an explicit limit of 5 yields a payload whose
`limit` field is 5 and whose result list is non-empty. -/
theorem index_search_limit_witness :
    jget (MockVectorIndex.search ⟨"docs", "embedding"⟩ [1, 0] (some 5))
      "limit" = some (.num 5 0) ∧
    (∃ rs, jget (MockVectorIndex.search ⟨"docs", "embedding"⟩ [1, 0] (some 5))
      "results" = some (.arr rs) ∧ rs.length = 2 ∧ 0 < rs.length) := by
  have h := index_search_limit ⟨"docs", "embedding"⟩ [1, 0] 5 (by norm_num)
  exact ⟨h.2.1, h.2.2.1⟩

/-- C10: the mock index applies the default limit of 10 whenever the given
limit is falsy — an explicit 0 or an explicit `None` — not only when the
argument is omitted. -/
theorem search_falsy_limit (idx : VectorIndex) (qv : List ℚ) :
    jget (MockVectorIndex.search idx qv (some 0)) "limit" =
      some (.num 10 0) ∧
    jget (MockVectorIndex.search idx qv none) "limit" =
      some (.num 10 0) := ⟨rfl, rfl⟩

/-- C9: for every constructed client — whichever transport mode was chosen —
`health_check` issues the HTTP `GET {base_url}/health` call with a 10 second
timeout and never consults the Rust client, while every other public
operation dispatches to the Rust client when `use_rust` was selected. -/
theorem health_check_always_http (mk : String → Int → RustClient)
    (host : String) (port : Int) (ur : Bool) (http : Http)
    (sql query topic name schema table column : String) (limit : Int)
    (data : JVal) :
    healthRequest (connect mk host port ur) =
      { isPost := false,
        url := "http://" ++ host ++ ":" ++ toString port ++ "/health",
        body := none, timeoutSec := 10 } ∧
    health_check (connect mk host port ur) http =
      health_check (connect mk host port (!ur)) http ∧
    execute_query (connect mk host port true) http sql =
      (mk host port).execute_query sql ∧
    vector_search (connect mk host port true) http query limit =
      (mk host port).vector_search query limit ∧
    subscribe_stream (connect mk host port true) http topic =
      (mk host port).subscribe_stream topic ∧
    create_table (connect mk host port true) name schema =
      (mk host port).create_table name schema ∧
    insert_data (connect mk host port true) table data =
      (mk host port).insert_data table data ∧
    create_vector_index (connect mk host port true) table column =
      (mk host port).create_vector_index table column ∧
    list_tables (connect mk host port true) = (mk host port).list_tables ∧
    get_table_info (connect mk host port true) table =
      (mk host port).get_table_info table ∧
    get_stats (connect mk host port true) = (mk host port).get_stats :=
  ⟨rfl, rfl, rfl, rfl, rfl, rfl, rfl, rfl, rfl, rfl, rfl⟩

end Vectra

namespace PerfTest

/-- Auxiliary: running the serialized interleaving from any starting counter
state adds the per-worker success and failure counts, leaving no pending
store. -/
theorem foldl_concStep_serialized (succ : Nat → Bool) (L : Nat)
    (cs : ConcState) :
    (serializedSched L).foldl (concStep succ) (cs, []) =
      ({ completed := cs.completed + (List.range L).countP succ,
         failed := cs.failed + (List.range L).countP (fun i => !succ i) },
       []) := by
  induction L generalizing cs with
  | zero =>
    cases cs
    simp [serializedSched, List.range_zero]
  | succ n ih =>
    rw [show serializedSched (n + 1) = serializedSched n ++ [n, n] by
      simp [serializedSched, List.range_succ]]
    rw [List.foldl_append, ih cs]
    cases hsn : succ n
    · simp [concStep, List.lookup, hsn, List.range_succ,
        List.countP_append, List.countP_cons, ConcState.mk.injEq]
      omega
    · simp [concStep, List.lookup, hsn, List.range_succ,
        List.countP_append, List.countP_cons, ConcState.mk.injEq]
      omega

/-- Auxiliary: the counts produced by a serialized (lost-update-free) run. -/
theorem runSched_serialized (succ : Nat → Bool) (L : Nat) :
    runSched succ (serializedSched L) =
      { completed := (List.range L).countP succ,
        failed := (List.range L).countP (fun i => !succ i) } := by
  unfold runSched
  rw [foldl_concStep_serialized]
  simp

/-- Auxiliary: successes and failures partition a list. -/
theorem countP_not_add (l : List Nat) (p : Nat → Bool) :
    l.countP p + l.countP (fun a => !p a) = l.length := by
  induction l with
  | nil => simp
  | cons x t ih => cases h : p x <;> simp [List.countP_cons, h] <;> omega

/-- C1: when every increment's load/store pair runs serialized — the
behaviour of atomic counters, or of per-worker results merged after join —
the aggregated counts always satisfy `completed + failed = L` and
`completed ≥ 0`.  The code's unsynchronized `+= 1` on shared variables,
however, admits the interleaving `raceSched2` of two succeeding workers in
which both load the counter before either stores: that run ends with
`completed = 1`, `failed = 0`, so an increment is lost and
`completed + failed ≠ 2`. -/
theorem concurrency_counts (L : Nat) (succ : Nat → Bool) :
    (runSched succ (serializedSched L)).completed +
      (runSched succ (serializedSched L)).failed = L ∧
    0 ≤ ((runSched succ (serializedSched L)).completed : Int) ∧
    runSched (fun _ => true) raceSched2 = ⟨1, 0⟩ ∧
    (runSched (fun _ => true) raceSched2).completed +
      (runSched (fun _ => true) raceSched2).failed = 1 := by
  refine ⟨?_, Int.natCast_nonneg _, rfl, rfl⟩
  rw [runSched_serialized]
  simpa using countP_not_add (List.range L) succ

end PerfTest

namespace PerfTest

/-- C4: the concurrency phase spawns workers `0 .. L-1` and worker `i`
performs exactly the operation selected by `i mod 3` with the call-site
arguments; with an always-succeeding transport at level 10 and the counter
increments serialized, the recorded result has `completed = 10`,
`failed = 0` and positive throughput, and with an always-failing transport
the counts are `completed = 0`, `failed = L`.  The unsynchronized counters,
however, also admit the interleaving `raceSched10` of ten succeeding
workers whose run ends with `completed = 9`: the expected counts are not
guaranteed for every run. -/
theorem concurrent_phase_dispatch :
    (∀ i : Nat,
      (i % 3 = 0 →
        workerCall i = .executeQuery "SELECT * FROM perf_test_table LIMIT 1") ∧
      (i % 3 = 1 → workerCall i = .vectorSearch "test" 5) ∧
      (i % 3 = 2 → workerCall i = .getStats)) ∧
    (∀ env : PerfEnv, (∀ lvl i op, env.concOpOk lvl i op = true) →
      env.concSched 10 = serializedSched 10 →
      0 < env.concElapsed 10 →
      concLevel env 10 = .ok [("concurrent_10",
        [("concurrency_level", .q 10),
         ("total_time_s", .q (env.concElapsed 10)),
         ("completed_operations", .q 10), ("failed_operations", .q 0),
         ("throughput_ops_per_sec", .q (10 / env.concElapsed 10))])] ∧
      0 < 10 / env.concElapsed 10) ∧
    (∀ (env : PerfEnv) (L : Nat), (∀ lvl i op, env.concOpOk lvl i op = false) →
      env.concSched L = serializedSched L →
      (runSched (fun i => env.concOpOk L i (workerCall i))
        (env.concSched L)).completed = 0 ∧
      (runSched (fun i => env.concOpOk L i (workerCall i))
        (env.concSched L)).failed = L) ∧
    runSched (fun _ => true) raceSched10 = ⟨9, 0⟩ := by
  refine ⟨?_, ?_, ?_, rfl⟩
  · intro i
    refine ⟨fun h => ?_, fun h => ?_, fun h => ?_⟩ <;> simp [workerCall, h]
  · intro env hall hsched helapsed
    have hsucc : (fun i => env.concOpOk 10 i (workerCall i)) =
        (fun _ => true) := funext fun i => hall 10 i (workerCall i)
    have hne : env.concElapsed 10 ≠ 0 := ne_of_gt helapsed
    have hst : runSched (fun i => env.concOpOk 10 i (workerCall i))
        (env.concSched 10) = ⟨10, 0⟩ := by
      rw [hsched, hsucc, runSched_serialized]
      simp
    constructor
    · simp only [concLevel, hst, pydiv, if_neg hne]
      rfl
    · positivity
  · intro env L hall hsched
    have hsucc : (fun i => env.concOpOk L i (workerCall i)) =
        (fun _ => false) := funext fun i => hall L i (workerCall i)
    rw [hsched, hsucc, runSched_serialized]
    simp

/-- Witness: at level 10 with the all-succeeding environment the recorded
result is exactly the expected one; at level 5 with the all-failing
environment the counts are 0 and 5; worker 3 runs `execute_query`. -/
theorem concurrent_phase_dispatch_witness :
    concLevel envAllGood 10 = .ok [("concurrent_10",
      [("concurrency_level", .q 10), ("total_time_s", .q 1),
       ("completed_operations", .q 10), ("failed_operations", .q 0),
       ("throughput_ops_per_sec", .q 10)])] ∧
    (runSched (fun i => envFail.concOpOk 5 i (workerCall i))
      (envFail.concSched 5)).completed = 0 ∧
    (runSched (fun i => envFail.concOpOk 5 i (workerCall i))
      (envFail.concSched 5)).failed = 5 ∧
    workerCall 3 = .executeQuery "SELECT * FROM perf_test_table LIMIT 1" := by
  have h2 := (concurrent_phase_dispatch.2.1 envAllGood (fun _ _ _ => rfl) rfl
    (by norm_num [envAllGood])).1
  have h3 := concurrent_phase_dispatch.2.2.1 envFail 5 (fun _ _ _ => rfl) rfl
  have h1 := (concurrent_phase_dispatch.1 3).1 (by norm_num)
  refine ⟨?_, h3.1, h3.2, h1⟩
  norm_num [envAllGood] at h2
  exact h2

end PerfTest

namespace PerfTest

/-- C6: `_generate_test_data` pads the `data` string to `S - 50` characters
and clamps to the minimal trivial payload when `S - 50` is non-positive; but
the insertion phase's ten `insert_data` calls per size each pass three
positional arguments to the two-parameter method, so every call raises
`TypeError`, no latency sample survives, and the phase records nothing for
any size — in particular no average latency or derived throughput. -/
theorem insertion_generator_and_phase (S : Int) (env : PerfEnv) :
    (S - 50 ≤ 0 →
      generateTestData S = { id := 1, data := "small", timestamp := none }) ∧
    (0 < S - 50 →
      (generateTestData S).data.length = (S - 50).toNat ∧
      (generateTestData S).id = 1 ∧
      (generateTestData S).timestamp = some "2024-01-01T00:00:00Z") ∧
    insertSize env S = .ok [] := by
  refine ⟨fun h => ?_, fun h => ?_, rfl⟩
  · simp [generateTestData, h]
  · have hn : ¬ S - 50 ≤ 0 := by omega
    refine ⟨?_, ?_, ?_⟩ <;> simp [generateTestData, hn]

/-- Witness: at size 30 the payload is the trivial one; at size 100 the
padded string has 50 characters and the phase still records nothing. -/
theorem insertion_generator_witness :
    generateTestData 30 = { id := 1, data := "small", timestamp := none } ∧
    (generateTestData 100).data.length = 50 ∧
    insertSize envAllGood 100 = .ok [] := by
  have h30 := (insertion_generator_and_phase 30 envAllGood).1 (by norm_num)
  have h100 :=
    ((insertion_generator_and_phase 100 envAllGood).2.1 (by norm_num)).1
  exact ⟨h30, by rw [h100]; rfl,
    (insertion_generator_and_phase 100 envAllGood).2.2⟩

/-- C2 counterexample: in the environment where the concurrency batch
elapses in zero clock time, the `ZeroDivisionError` raised inside the
concurrency phase is caught by no phase-level handler: the run aborts, the
memory and stress phases never run, and the driver exits without writing the
output file even though the connection phase had recorded a result. -/
theorem phase_exception_aborts_run :
    PerfTest.main envZeroElapsed = none ∧
    (run_all_tests envZeroElapsed).2 =
      some "ZeroDivisionError: float division by zero" ∧
    ((run_all_tests envZeroElapsed).1.lookup "connection").isSome = true ∧
    (run_all_tests envZeroElapsed).1.lookup "memory_usage" = none ∧
    (run_all_tests envZeroElapsed).1.lookup "stress_rapid_operations" = none :=
  ⟨rfl, rfl, rfl, rfl, rfl⟩

/-- C2 as amended: failures of individual transport operations are caught
inside each phase, so they never abort the run; whenever no exception
escapes a phase body — for the embedded phases, exactly when no concurrency
batch elapses in zero time — every phase runs and the driver writes the
accumulated results to the output file. -/
theorem run_writes_partial_results (env : PerfEnv)
    (hconc : ∀ lvl ∈ concurrency_levels, env.concElapsed lvl ≠ 0) :
    (run_all_tests env).2 = none ∧
    PerfTest.main env = some (run_all_tests env).1 := by
  obtain ⟨r1, h1⟩ : ∃ r, connectionPhase env = .ok r := by
    unfold connectionPhase
    dsimp only
    split <;> exact ⟨_, rfl⟩
  obtain ⟨r2, h2⟩ : ∃ r, tablePhase env = .ok r := by
    unfold tablePhase
    dsimp only
    split <;> exact ⟨_, rfl⟩
  have h3 : insertionPhase env = .ok [] := rfl
  obtain ⟨r4, h4⟩ : ∃ r, queryPhase env = .ok r := ⟨_, rfl⟩
  obtain ⟨r5, h5⟩ : ∃ r, vsearchPhase env = .ok r := ⟨_, rfl⟩
  have hc : ∀ lvl, env.concElapsed lvl ≠ 0 →
      ∃ r, concLevel env lvl = .ok r := by
    intro lvl h
    unfold concLevel
    simp only [pydiv, if_neg h]
    exact ⟨_, rfl⟩
  obtain ⟨c5, hc5⟩ := hc 5 (hconc 5 (by simp [concurrency_levels]))
  obtain ⟨c10, hc10⟩ := hc 10 (hconc 10 (by simp [concurrency_levels]))
  obtain ⟨c20, hc20⟩ := hc 20 (hconc 20 (by simp [concurrency_levels]))
  have h6 : concurrencyPhase env = .ok (c5 ++ c10 ++ c20) := by
    simp only [concurrencyPhase, concurrency_levels, List.mapM_cons,
      List.mapM_nil, hc5, hc10, hc20]
    show Except.ok ([c5, c10, c20].flatten) = _
    simp
  obtain ⟨r7, h7⟩ : ∃ r, memoryPhase env = .ok r := ⟨_, rfl⟩
  obtain ⟨r8, h8⟩ : ∃ r, stressPhase env = .ok r := ⟨_, rfl⟩
  obtain ⟨R, hrun⟩ : ∃ R, run_all_tests env = (R, none) := by
    unfold run_all_tests phaseList
    simp only [runPhases, h1, h2, h3, h4, h5, h6, h7, h8]
    exact ⟨_, rfl⟩
  exact ⟨by rw [hrun], by simp [main, hrun]⟩

/-- Witness: in the all-good environment no exception escapes and the
driver writes the full result set. -/
theorem run_writes_partial_results_witness :
    (run_all_tests envAllGood).2 = none ∧
    PerfTest.main envAllGood = some (run_all_tests envAllGood).1 :=
  run_writes_partial_results envAllGood
    (by intro lvl h; simp [envAllGood])

end PerfTest

namespace Store


theorem takeWhile_sentinel (p : Char → Bool) (s : List Char) (x : Char)
    (r : List Char) (hs : ∀ c ∈ s, p c = true) (hx : p x = false) :
    (s ++ x :: r).takeWhile p = s := by
  induction s with
  | nil => simp [List.takeWhile_cons, hx]
  | cons a t ih =>
    have ha : p a = true := hs a (by simp)
    simp only [List.cons_append, List.takeWhile_cons, ha, if_true]
    rw [ih (fun c hc => hs c (by simp [hc]))]

theorem dropWhile_sentinel (p : Char → Bool) (s : List Char) (x : Char)
    (r : List Char) (hs : ∀ c ∈ s, p c = true) (hx : p x = false) :
    (s ++ x :: r).dropWhile p = x :: r := by
  induction s with
  | nil => simp [List.dropWhile_cons, hx]
  | cons a t ih =>
    have ha : p a = true := hs a (by simp)
    simp only [List.cons_append, List.dropWhile_cons, ha, if_true]
    exact ih (fun c hc => hs c (by simp [hc]))

theorem span_sentinel (p : Char → Bool) (s : List Char) (x : Char)
    (r : List Char) (hs : ∀ c ∈ s, p c = true) (hx : p x = false) :
    (s ++ x :: r).span p = (s, x :: r) := by
  rw [List.span_eq_take_drop, takeWhile_sentinel p s x r hs hx,
    dropWhile_sentinel p s x r hs hx]

theorem span_all (p : Char → Bool) (s : List Char)
    (hs : ∀ c ∈ s, p c = true) : s.span p = (s, []) := by
  rw [List.span_eq_take_drop, List.takeWhile_eq_self_iff.mpr hs,
    List.dropWhile_eq_nil_iff.mpr hs]

theorem span_append_stop (p : Char → Bool) (s rest : List Char)
    (hs : ∀ c ∈ s, p c = true)
    (hrest : ∀ c, rest.head? = some c → p c = false) :
    (s ++ rest).span p = (s, rest) := by
  rcases rest with _ | ⟨x, r⟩
  · rw [List.append_nil]
    exact span_all p s hs
  · exact span_sentinel p s x r hs (hrest x rfl)



theorem isDigitChar_digitChar (n : Nat) (h : n < 10) :
    isDigitChar (digitChar n) = true := by
  interval_cases n <;> decide

theorem digitVal_digitChar (n : Nat) (h : n < 10) :
    digitVal (digitChar n) = n := by
  interval_cases n <;> decide

theorem natDigits_all_digits (n : Nat) :
    ∀ c ∈ natDigits n, isDigitChar c = true := by
  induction n using Nat.strong_induction_on with
  | _ n ih =>
    unfold natDigits
    split
    · rename_i h
      intro c hc
      simp only [List.mem_singleton] at hc
      subst hc
      exact isDigitChar_digitChar n h
    · rename_i h
      intro c hc
      rw [List.mem_append] at hc
      rcases hc with hc | hc
      · exact ih (n / 10) (Nat.div_lt_self (by omega) (by omega)) c hc
      · simp only [List.mem_singleton] at hc
        subst hc
        exact isDigitChar_digitChar (n % 10) (by omega)

theorem natDigits_ne_nil (n : Nat) : natDigits n ≠ [] := by
  unfold natDigits
  split <;> simp

theorem foldl_digits (ds : List Char) (acc : Nat) :
    ds.foldl (fun a c => a * 10 + digitVal c) acc =
      acc * 10 ^ ds.length + digitsToNat ds := by
  induction ds generalizing acc with
  | nil => simp [digitsToNat]
  | cons c t ih =>
    simp only [List.foldl_cons, digitsToNat, List.length_cons]
    rw [ih (acc * 10 + digitVal c), ih (0 * 10 + digitVal c)]
    ring

theorem digitsToNat_append (a b : List Char) :
    digitsToNat (a ++ b) = digitsToNat a * 10 ^ b.length + digitsToNat b := by
  simp only [digitsToNat, List.foldl_append]
  rw [foldl_digits]
  rfl

theorem digitsToNat_zeros (k : Nat) (b : List Char) :
    digitsToNat (List.replicate k '0' ++ b) = digitsToNat b := by
  rw [digitsToNat_append]
  have h0 : digitsToNat (List.replicate k '0') = 0 := by
    induction k with
    | zero => rfl
    | succ n ihn =>
      rw [List.replicate_succ]
      show List.foldl _ (0 * 10 + digitVal '0') _ = 0
      have : (0 : Nat) * 10 + digitVal '0' = 0 := by decide
      rw [this]
      exact ihn
  rw [h0]
  simp

theorem digitsToNat_natDigits (n : Nat) : digitsToNat (natDigits n) = n := by
  induction n using Nat.strong_induction_on with
  | _ n ih =>
    unfold natDigits
    split
    · rename_i h
      show (0 : Nat) * 10 + digitVal (digitChar n) = n
      rw [digitVal_digitChar n h]
      omega
    · rename_i h
      rw [digitsToNat_append]
      have h1 : digitsToNat [digitChar (n % 10)] =
          digitVal (digitChar (n % 10)) := by
        show (0 : Nat) * 10 + _ = _
        omega
      rw [h1, digitVal_digitChar (n % 10) (by omega),
        ih (n / 10) (Nat.div_lt_self (by omega) (by omega))]
      simp only [List.length_singleton, pow_one]
      omega



theorem parseString_print (s rest : List Char) (h : ∀ c ∈ s, c ≠ '"') :
    parseString (printString s ++ rest) = some (s, rest) := by
  have ht : (s ++ '"' :: rest).takeWhile (fun c => c != '"') = s :=
    takeWhile_sentinel _ s '"' rest (fun c hc => by simpa using h c hc)
      (by decide)
  have hdw : (s ++ '"' :: rest).dropWhile (fun c => c != '"') = '"' :: rest :=
    dropWhile_sentinel _ s '"' rest (fun c hc => by simpa using h c hc)
      (by decide)
  simp [parseString, printString, List.append_assoc, ht, hdw]



theorem parseNum_print (m : Int) (d : Nat) (rest : List Char)
    (hrest : ∀ c, rest.head? = some c → (isDigitChar c = false ∧ c ≠ '.')) :
    parseNum (printNum m d ++ rest) = some ((m, d), rest) := by
  have hL0 : 1 ≤ (natDigits m.natAbs).length :=
    List.length_pos.mpr (natDigits_ne_nil _)
  have hdsdig : ∀ c ∈ List.replicate (d + 1 - (natDigits m.natAbs).length) '0'
      ++ natDigits m.natAbs, isDigitChar c = true := by
    intro c hc
    rw [List.mem_append] at hc
    rcases hc with hc | hc
    · rw [List.eq_of_mem_replicate hc]; decide
    · exact natDigits_all_digits _ c hc
  set ds := List.replicate (d + 1 - (natDigits m.natAbs).length) '0'
      ++ natDigits m.natAbs with hds
  have hdslen : d + 1 ≤ ds.length := by
    rw [hds, List.length_append, List.length_replicate]
    omega
  have hDds : digitsToNat ds = m.natAbs := by
    rw [hds, digitsToNat_zeros, digitsToNat_natDigits]
  have hif : ds.take (ds.length - d) ++ ds.drop (ds.length - d) = ds :=
    List.take_append_drop _ _
  have hint_len : (ds.take (ds.length - d)).length = ds.length - d := by
    rw [List.length_take]; omega
  have hfrac_len : (ds.drop (ds.length - d)).length = d := by
    rw [List.length_drop]; omega
  have hint_dig : ∀ c ∈ ds.take (ds.length - d), isDigitChar c = true :=
    fun c hc => hdsdig c (List.take_subset _ _ hc)
  have hfrac_dig : ∀ c ∈ ds.drop (ds.length - d), isDigitChar c = true :=
    fun c hc => hdsdig c (List.drop_subset _ _ hc)
  have hint_ne : ds.take (ds.length - d) ≠ [] := by
    intro hnil
    rw [hnil] at hint_len
    simp at hint_len
    omega
  have hprint : printNum m d = (if m < 0 then ['-'] else []) ++
      (ds.take (ds.length - d) ++
        (if d = 0 then [] else '.' :: ds.drop (ds.length - d))) := by
    rw [printNum, List.append_assoc]
  have hmneg : m < 0 → -(m.natAbs : Int) = m := fun h => by omega
  have hmpos : ¬ m < 0 → (m.natAbs : Int) = m := fun h => by omega
  have hrest_dig : ∀ c, rest.head? = some c → isDigitChar c = false :=
    fun c hc => (hrest c hc).1
  by_cases hd0 : d = 0
  · subst hd0
    have hint0 : ds.take (ds.length - 0) = ds := by
      rw [Nat.sub_zero, List.take_length]
    have htk : (ds ++ rest).takeWhile isDigitChar = ds := by
      rcases hr : rest with _ | ⟨x, r⟩
      · rw [List.append_nil]
        exact List.takeWhile_eq_self_iff.mpr hdsdig
      · exact takeWhile_sentinel _ ds x r hdsdig (hrest_dig x (by rw [hr]; rfl))
    have hdw : (ds ++ rest).dropWhile isDigitChar = rest := by
      rcases hr : rest with _ | ⟨x, r⟩
      · rw [List.append_nil]
        exact List.dropWhile_eq_nil_iff.mpr hdsdig
      · exact dropWhile_sentinel _ ds x r hdsdig (hrest_dig x (by rw [hr]; rfl))
    have hds_ne : ds ≠ [] := by
      intro hnil
      rw [hnil] at hdslen
      simp at hdslen
    have hrest_nodot : ¬ rest.head? = some '.' := by
      intro hc
      exact (hrest '.' hc).2 rfl
    by_cases hm : m < 0
    · rw [hprint, hint0, if_pos hm]
      show parseNum (('-' :: (ds ++ [])) ++ rest) = _
      rw [List.append_nil]
      simp only [parseNum, List.cons_append, List.head?_cons, List.tail_cons,
        List.span_eq_take_drop]
      simp [htk, hdw, hds_ne, hrest_nodot, hDds, hmneg hm]
      simp [abs_of_neg hm]
    · rw [hprint, hint0, if_neg hm]
      show parseNum (([] ++ (ds ++ [])) ++ rest) = _
      rw [List.nil_append, List.append_nil]
      obtain ⟨c0, dtl, hds_eq⟩ : ∃ c0 dtl, ds = c0 :: dtl := by
        rcases hx : ds with _ | ⟨a, b⟩
        · exact absurd hx hds_ne
        · exact ⟨a, b, rfl⟩
      have hc0dig : isDigitChar c0 = true := hdsdig c0 (by rw [hds_eq]; simp)
      have hc0neg : c0 ≠ '-' := by
        intro hcc
        subst hcc
        exact absurd hc0dig (by decide)
      have hdsh : ds.head? = some c0 := by rw [hds_eq]; rfl
      have hheq : (ds ++ rest).head? = some c0 := by rw [hds_eq]; rfl
      simp only [parseNum, List.span_eq_take_drop]
      simp [htk, hdw, hds_ne, hrest_nodot, hDds, hdsh, hheq, hc0neg,
        abs_of_nonneg (by omega : (0 : Int) ≤ m)]
  · have hfrac_ne : ds.drop (ds.length - d) ≠ [] := by
      intro hnil
      rw [hnil] at hfrac_len
      exact hd0 (by simpa using hfrac_len.symm)
    have htk2 : (ds.take (ds.length - d) ++
        '.' :: (ds.drop (ds.length - d) ++ rest)).takeWhile isDigitChar =
        ds.take (ds.length - d) :=
      takeWhile_sentinel _ _ '.' _ hint_dig (by decide)
    have hdw2 : (ds.take (ds.length - d) ++
        '.' :: (ds.drop (ds.length - d) ++ rest)).dropWhile isDigitChar =
        '.' :: (ds.drop (ds.length - d) ++ rest) :=
      dropWhile_sentinel _ _ '.' _ hint_dig (by decide)
    have htk3 : (ds.drop (ds.length - d) ++ rest).takeWhile isDigitChar =
        ds.drop (ds.length - d) := by
      rcases hr : rest with _ | ⟨x, r⟩
      · rw [List.append_nil]
        exact List.takeWhile_eq_self_iff.mpr hfrac_dig
      · exact takeWhile_sentinel _ _ x r hfrac_dig
          (hrest_dig x (by rw [hr]; rfl))
    have hdw3 : (ds.drop (ds.length - d) ++ rest).dropWhile isDigitChar =
        rest := by
      rcases hr : rest with _ | ⟨x, r⟩
      · rw [List.append_nil]
        exact List.dropWhile_eq_nil_iff.mpr hfrac_dig
      · exact dropWhile_sentinel _ _ x r hfrac_dig
          (hrest_dig x (by rw [hr]; rfl))
    have hD2 : digitsToNat (ds.take (ds.length - d) ++
        ds.drop (ds.length - d)) = m.natAbs := by rw [hif, hDds]
    by_cases hm : m < 0
    · rw [hprint, if_pos hm, if_neg hd0]
      show parseNum (('-' :: (ds.take (ds.length - d) ++
        '.' :: ds.drop (ds.length - d))) ++ rest) = _
      simp only [List.cons_append, List.append_assoc, List.cons_append]
      simp only [parseNum, List.head?_cons, List.tail_cons,
        List.span_eq_take_drop]
      simp [htk2, hdw2, htk3, hdw3, hint_ne, hfrac_ne, hD2, hDds, hfrac_len,
        abs_of_neg hm]
    · rw [hprint, if_neg hm, if_neg hd0]
      show parseNum (([] ++ (ds.take (ds.length - d) ++
        '.' :: ds.drop (ds.length - d))) ++ rest) = _
      rw [List.nil_append]
      obtain ⟨c0, itl, hint_eq⟩ : ∃ c0 itl,
          ds.take (ds.length - d) = c0 :: itl := by
        rcases hx : ds.take (ds.length - d) with _ | ⟨a, b⟩
        · exact absurd hx hint_ne
        · exact ⟨a, b, rfl⟩
      have hc0dig : isDigitChar c0 = true :=
        hint_dig c0 (by rw [hint_eq]; simp)
      have hc0neg : c0 ≠ '-' := by
        intro hcc
        subst hcc
        exact absurd hc0dig (by decide)
      have hih : (ds.take (ds.length - d)).head? = some c0 := by
        rw [hint_eq]; rfl
      have hiheq : (ds.take (ds.length - d) ++
          ('.' :: (ds.drop (ds.length - d) ++ rest))).head? = some c0 := by
        rw [hint_eq]; rfl
      simp only [parseNum, List.span_eq_take_drop]
      simp only [List.append_assoc, List.cons_append] at hiheq ⊢
      simp [htk2, hdw2, htk3, hdw3, hint_ne, hfrac_ne, hD2, hDds, hfrac_len,
        hih, hiheq, hc0neg,
        abs_of_nonneg (by omega : (0 : Int) ≤ m)]


theorem printNum_ne_nil (m : Int) (d : Nat) : printNum m d ≠ [] := by
  rw [printNum]
  by_cases hm : m < 0
  · rw [if_pos hm, List.singleton_append, List.cons_append]
    simp
  · rw [if_neg hm, List.nil_append]
    intro hnil
    rw [List.append_eq_nil] at hnil
    have h1 := hnil.1
    have hL0 : 1 ≤ (natDigits m.natAbs).length :=
      List.length_pos.mpr (natDigits_ne_nil _)
    have hlen : d + 1 ≤ (List.replicate
        (d + 1 - (natDigits m.natAbs).length) '0' ++
        natDigits m.natAbs).length := by
      rw [List.length_append, List.length_replicate]
      omega
    have := congrArg List.length h1
    rw [List.length_take] at this
    simp at this
    omega

theorem printNum_head_neg (m : Int) (d : Nat) (hm : m < 0) :
    (printNum m d).head? = some '-' := by
  rw [printNum, if_pos hm, List.singleton_append, List.cons_append]
  rfl

theorem printNum_head_digit (m : Int) (d : Nat) (hm : ¬ m < 0) :
    ∃ c t, printNum m d = c :: t ∧ isDigitChar c = true := by
  set ds := List.replicate (d + 1 - (natDigits m.natAbs).length) '0'
      ++ natDigits m.natAbs with hds
  have hL0 : 1 ≤ (natDigits m.natAbs).length :=
    List.length_pos.mpr (natDigits_ne_nil _)
  have hdslen : d + 1 ≤ ds.length := by
    rw [hds, List.length_append, List.length_replicate]
    omega
  have hint_len : (ds.take (ds.length - d)).length = ds.length - d := by
    rw [List.length_take]; omega
  have hint_ne : ds.take (ds.length - d) ≠ [] := by
    intro hnil
    rw [hnil] at hint_len
    simp at hint_len
    omega
  obtain ⟨c0, itl, hint_eq⟩ : ∃ c0 itl,
      ds.take (ds.length - d) = c0 :: itl := by
    rcases hx : ds.take (ds.length - d) with _ | ⟨a, b⟩
    · exact absurd hx hint_ne
    · exact ⟨a, b, rfl⟩
  have hc0dig : isDigitChar c0 = true := by
    have hmem : c0 ∈ ds.take (ds.length - d) := by rw [hint_eq]; simp
    have hmem2 : c0 ∈ ds := List.take_subset _ _ hmem
    rw [hds] at hmem2
    rw [List.mem_append] at hmem2
    rcases hmem2 with hc | hc
    · rw [List.eq_of_mem_replicate hc]; decide
    · exact natDigits_all_digits _ c0 hc
  refine ⟨c0, itl ++ (if d = 0 then [] else '.' :: ds.drop (ds.length - d)),
    ?_, hc0dig⟩
  rw [printNum]
  rw [if_neg hm]
  rw [List.nil_append, ← hds, hint_eq, List.cons_append]

theorem parsePrim_print (v : Prim) (rest : List Char) (hok : okPrim v = true)
    (hrest : ∀ c, rest.head? = some c → (isDigitChar c = false ∧ c ≠ '.')) :
    parsePrim (printPrim v ++ rest) = some (v, rest) := by
  cases v with
  | str s =>
    have hq : ∀ c ∈ s, c ≠ '"' := by
      intro c hc he
      subst he
      simp only [okPrim, okStr, List.all_eq_true] at hok
      exact absurd (hok _ hc) (by decide)
    have hh : (printString s ++ rest).head? = some '"' := rfl
    simp only [printPrim, parsePrim, hh, if_true,
      parseString_print s rest hq, Option.map_some]
    simp
  | num m d =>
    by_cases hm : m < 0
    · obtain ⟨c, t, hct⟩ := List.exists_cons_of_ne_nil (printNum_ne_nil m d)
      have hc : c = '-' := by
        have h2 := printNum_head_neg m d hm
        rw [hct] at h2
        injection h2
      subst hc
      have hcs : printNum m d ++ rest = '-' :: (t ++ rest) := by
        rw [hct, List.cons_append]
      simp only [printPrim, parsePrim, hcs, List.head?_cons]
      rw [if_neg (by decide : ¬ (some '-' = some '"'))]
      rw [if_pos (Or.inl trivial), ← hcs, parseNum_print m d rest hrest]
      rfl
    · obtain ⟨c, t, hct, hcd⟩ := printNum_head_digit m d hm
      have hcs : printNum m d ++ rest = c :: (t ++ rest) := by
        rw [hct, List.cons_append]
      have hcq : ¬ (some c = some '"') := by
        intro he
        injection he with he
        subst he
        exact absurd hcd (by decide)
      simp only [printPrim, parsePrim, hcs, List.head?_cons]
      rw [if_neg hcq, if_pos (Or.inr hcd), ← hcs,
        parseNum_print m d rest hrest]
      rfl



theorem skipWs_cons_not (c : Char) (l : List Char) (h : isWsChar c = false) :
    skipWs (c :: l) = c :: l := by
  simp [skipWs, List.dropWhile_cons, h]

theorem not_ws_of_digit (c : Char) (h : isDigitChar c = true) :
    isWsChar c = false := by
  cases hw : isWsChar c
  · rfl
  · exfalso
    simp only [isWsChar, Bool.or_eq_true, beq_iff_eq] at hw
    rcases hw with ((h1 | h1) | h1) | h1 <;> subst h1 <;>
      exact absurd h (by decide)

theorem skipWs_printString (s X : List Char) :
    skipWs (printString s ++ X) = printString s ++ X := by
  show skipWs ('"' :: ((s ++ ['"']) ++ X)) = _
  rw [skipWs_cons_not _ _ (by decide)]
  rfl

theorem skipWs_printPrim (v : Prim) (X : List Char) :
    skipWs (printPrim v ++ X) = printPrim v ++ X := by
  cases v with
  | str s => exact skipWs_printString s X
  | num m d =>
    by_cases hm : m < 0
    · obtain ⟨c, t, hct⟩ := List.exists_cons_of_ne_nil (printNum_ne_nil m d)
      have hc : c = '-' := by
        have h2 := printNum_head_neg m d hm
        rw [hct] at h2
        injection h2
      subst hc
      show skipWs (printNum m d ++ X) = _
      rw [hct, List.cons_append, skipWs_cons_not _ _ (by decide)]
      rw [← List.cons_append, ← hct]
      rfl
    · obtain ⟨c, t, hct, hcd⟩ := printNum_head_digit m d hm
      show skipWs (printNum m d ++ X) = _
      rw [hct, List.cons_append,
        skipWs_cons_not _ _ (not_ws_of_digit c hcd)]
      rw [← List.cons_append, ← hct]
      rfl

theorem okStr_no_quote (s : List Char) (h : okStr s = true) :
    ∀ c ∈ s, c ≠ '"' := by
  intro c hc he
  subst he
  simp only [okStr, List.all_eq_true] at h
  exact absurd (h _ hc) (by decide)

theorem parseFieldsAux_print (fs : BRes) (rest : List Char) (fuel : Nat)
    (hne : fs ≠ []) (hok : okFields fs = true) (hfuel : fs.length ≤ fuel) :
    parseFieldsAux fuel (printFields fs ++ '}' :: rest) = some (fs, rest) := by
  induction fs generalizing fuel rest with
  | nil => exact absurd rfl hne
  | cons f tl ih =>
    rcases fuel with _ | fuel
    · exact absurd hfuel (by simp)
    have hokf : okStr f.1 = true ∧ okPrim f.2 = true := by
      simp only [okFields, List.all_cons, Bool.and_eq_true] at hok
      exact hok.1
    have hoktl : okFields tl = true := by
      simp only [okFields, List.all_cons, Bool.and_eq_true] at hok
      exact hok.2
    rcases tl with _ | ⟨f2, tl2⟩
    · have hcs : printFields [f] ++ '}' :: rest =
          printString f.1 ++ (':' :: (printPrim f.2 ++ '}' :: rest)) := by
        show (printString f.1 ++ ':' :: printPrim f.2) ++ '}' :: rest = _
        rw [List.append_assoc, List.cons_append]
      have hps : parseString (printString f.1 ++
          (':' :: (printPrim f.2 ++ '}' :: rest))) =
          some (f.1, ':' :: (printPrim f.2 ++ '}' :: rest)) :=
        parseString_print _ _ (okStr_no_quote _ hokf.1)
      have hsk1 : skipWs (':' :: (printPrim f.2 ++ '}' :: rest)) =
          ':' :: (printPrim f.2 ++ '}' :: rest) :=
        skipWs_cons_not _ _ (by decide)
      have hpp : parsePrim (printPrim f.2 ++ '}' :: rest) =
          some (f.2, '}' :: rest) :=
        parsePrim_print f.2 ('}' :: rest) hokf.2
          (by intro c hc; injection hc with hc; subst hc;
              exact ⟨by decide, by decide⟩)
      have hsk2 : skipWs ('}' :: rest) = '}' :: rest :=
        skipWs_cons_not _ _ (by decide)
      rw [hcs]
      show parseFieldsAux (fuel + 1) _ = _
      simp only [parseFieldsAux, skipWs_printString, hps, hsk1,
        skipWs_printPrim, hpp, hsk2, List.head?_cons, List.tail_cons]
      simp
    · have hcs : printFields (f :: f2 :: tl2) ++ '}' :: rest =
          printString f.1 ++ (':' :: (printPrim f.2 ++
            (',' :: (printFields (f2 :: tl2) ++ '}' :: rest)))) := by
        show ((printString f.1 ++ ':' :: printPrim f.2) ++
          ',' :: printFields (f2 :: tl2)) ++ '}' :: rest = _
        rw [List.append_assoc, List.append_assoc]
        rfl
      have hps : parseString (printString f.1 ++ (':' :: (printPrim f.2 ++
          (',' :: (printFields (f2 :: tl2) ++ '}' :: rest))))) =
          some (f.1, ':' :: (printPrim f.2 ++
            (',' :: (printFields (f2 :: tl2) ++ '}' :: rest)))) :=
        parseString_print _ _ (okStr_no_quote _ hokf.1)
      have hsk1 : skipWs (':' :: (printPrim f.2 ++
          (',' :: (printFields (f2 :: tl2) ++ '}' :: rest)))) =
          ':' :: (printPrim f.2 ++
            (',' :: (printFields (f2 :: tl2) ++ '}' :: rest))) :=
        skipWs_cons_not _ _ (by decide)
      have hpp : parsePrim (printPrim f.2 ++
          (',' :: (printFields (f2 :: tl2) ++ '}' :: rest))) =
          some (f.2, ',' :: (printFields (f2 :: tl2) ++ '}' :: rest)) :=
        parsePrim_print f.2 _ hokf.2
          (by intro c hc; injection hc with hc; subst hc;
              exact ⟨by decide, by decide⟩)
      have hsk2 : skipWs (',' :: (printFields (f2 :: tl2) ++ '}' :: rest)) =
          ',' :: (printFields (f2 :: tl2) ++ '}' :: rest) :=
        skipWs_cons_not _ _ (by decide)
      have hih := ih rest fuel (by simp) hoktl (by simpa using hfuel)
      rw [hcs]
      show parseFieldsAux (fuel + 1) _ = _
      simp only [parseFieldsAux, skipWs_printString, hps, hsk1,
        skipWs_printPrim, hpp, hsk2, List.head?_cons, List.tail_cons, hih]
      simp


theorem parseObj_print (fs : BRes) (rest : List Char) (fuel : Nat)
    (hok : okFields fs = true) (hfuel : fs.length ≤ fuel) :
    parseObj fuel (printObj fs ++ rest) = some (fs, rest) := by
  have hcs : printObj fs ++ rest = '{' :: (printFields fs ++ '}' :: rest) := by
    show ('{' :: (printFields fs ++ ['}'])) ++ rest = _
    rw [List.cons_append, List.append_assoc]
    rfl
  rw [hcs]
  rcases fs with _ | ⟨f, tl⟩
  · show parseObj fuel ('{' :: ('}' :: rest)) = _
    simp only [parseObj, skipWs_cons_not '{' _ (by decide),
      skipWs_cons_not '}' _ (by decide), List.head?_cons, List.tail_cons]
    simp
  · have hfh : ∃ t, printFields (f :: tl) ++ '}' :: rest = '"' :: t := by
      rcases tl with _ | ⟨f2, tl2⟩
      · exact ⟨_, rfl⟩
      · exact ⟨_, rfl⟩
    obtain ⟨t, hft⟩ := hfh
    simp only [parseObj, skipWs_cons_not '{' _ (by decide),
      List.head?_cons, List.tail_cons, hft,
      skipWs_cons_not '"' _ (by decide)]
    rw [← hft, parseFieldsAux_print (f :: tl) rest fuel (by simp) hok hfuel]
    simp


theorem length_le_printFields (fs : BRes) :
    fs.length ≤ (printFields fs).length := by
  induction fs with
  | nil => simp [printFields, joinComma]
  | cons f tl ih =>
    rcases tl with _ | ⟨f2, tl2⟩
    · simp [printFields, joinComma, printString]
    · show (f :: f2 :: tl2).length ≤
        ((printString f.1 ++ ':' :: printPrim f.2) ++
          ',' :: printFields (f2 :: tl2)).length
      simp only [List.length_cons, List.length_append] at ih ⊢
      have h1 : 1 ≤ (printString f.1).length := by
        simp [printString]
      omega

theorem length_le_printEntries (st : ResultSet) :
    st.length ≤ (printEntries st).length := by
  induction st with
  | nil => simp [printEntries, joinComma]
  | cons x tl ih =>
    rcases tl with _ | ⟨y, tl2⟩
    · simp [printEntries, joinComma, printString]
    · show (x :: y :: tl2).length ≤
        ((printString x.1 ++ ':' :: printObj x.2) ++
          ',' :: printEntries (y :: tl2)).length
      simp only [List.length_cons, List.length_append] at ih ⊢
      have h1 : 1 ≤ (printString x.1).length := by
        simp [printString]
      omega

theorem entry_bound (st : ResultSet) :
    ∀ e ∈ st, e.2.length + st.length ≤ (printEntries st).length + 1 := by
  induction st with
  | nil => simp
  | cons x tl ih =>
    intro e he
    have hpx : x.2.length + 4 ≤
        (printString x.1 ++ ':' :: printObj x.2).length := by
      have h1 := length_le_printFields x.2
      simp only [printString, printObj, List.length_append, List.length_cons,
        List.length_singleton] at h1 ⊢
      omega
    rcases List.mem_cons.mp he with rfl | he2
    · rcases tl with _ | ⟨y, tl2⟩
      · show e.2.length + 1 ≤
          (printString e.1 ++ ':' :: printObj e.2).length + 1
        omega
      · have h2 := length_le_printEntries (y :: tl2)
        show e.2.length + (y :: tl2).length.succ ≤
          ((printString e.1 ++ ':' :: printObj e.2) ++
            ',' :: printEntries (y :: tl2)).length + 1
        simp only [List.length_append, List.length_cons,
          Nat.succ_eq_add_one] at hpx h2 ⊢
        omega
    · rcases tl with _ | ⟨y, tl2⟩
      · exact absurd he2 (List.not_mem_nil e)
      · have h3 := ih e he2
        show e.2.length + (y :: tl2).length.succ ≤
          ((printString x.1 ++ ':' :: printObj x.2) ++
            ',' :: printEntries (y :: tl2)).length + 1
        simp only [List.length_append, List.length_cons,
          Nat.succ_eq_add_one] at h3 ⊢
        have h1 : 1 ≤ (printString x.1).length := by
          simp [printString]
        omega

theorem printObj_head (fs : BRes) (X : List Char) :
    printObj fs ++ X = '{' :: (printFields fs ++ '}' :: X) := by
  show ('{' :: (printFields fs ++ ['}'])) ++ X = _
  rw [List.cons_append, List.append_assoc]
  rfl

theorem parseEntriesAux_print (st : ResultSet) (rest : List Char)
    (fuel : Nat) (hne : st ≠ []) (hok : okStore st = true)
    (hfuelE : st.length ≤ fuel)
    (hfuelO : ∀ e ∈ st, e.2.length + st.length ≤ fuel + 1) :
    parseEntriesAux fuel (printEntries st ++ '}' :: rest) =
      some (st, rest) := by
  induction st generalizing fuel rest with
  | nil => exact absurd rfl hne
  | cons x tl ih =>
    rcases fuel with _ | fuel
    · exact absurd hfuelE (by simp)
    have hokx : okStr x.1 = true ∧ okFields x.2 = true := by
      simp only [okStore, List.all_cons, Bool.and_eq_true] at hok
      exact hok.1
    have hoktl : okStore tl = true := by
      simp only [okStore, List.all_cons, Bool.and_eq_true] at hok
      exact hok.2
    have hxfuel : x.2.length ≤ fuel + 1 := by
      have := hfuelO x (by simp)
      simp only [List.length_cons] at this
      omega
    rcases tl with _ | ⟨x2, tl2⟩
    · have hcs : printEntries [x] ++ '}' :: rest =
          printString x.1 ++ (':' :: (printObj x.2 ++ '}' :: rest)) := by
        show (printString x.1 ++ ':' :: printObj x.2) ++ '}' :: rest = _
        rw [List.append_assoc, List.cons_append]
      have hps : parseString (printString x.1 ++
          (':' :: (printObj x.2 ++ '}' :: rest))) =
          some (x.1, ':' :: (printObj x.2 ++ '}' :: rest)) :=
        parseString_print _ _ (okStr_no_quote _ hokx.1)
      have hsk1 : skipWs (':' :: (printObj x.2 ++ '}' :: rest)) =
          ':' :: (printObj x.2 ++ '}' :: rest) :=
        skipWs_cons_not _ _ (by decide)
      have hpo : parseObj (fuel + 1) (printObj x.2 ++ '}' :: rest) =
          some (x.2, '}' :: rest) :=
        parseObj_print x.2 ('}' :: rest) (fuel + 1) hokx.2 hxfuel
      have hsk2 : skipWs ('}' :: rest) = '}' :: rest :=
        skipWs_cons_not _ _ (by decide)
      rw [hcs]
      show parseEntriesAux (fuel + 1) _ = _
      simp only [parseEntriesAux, skipWs_printString, hps, hsk1, hpo, hsk2,
        List.head?_cons, List.tail_cons]
      simp
    · have hcs : printEntries (x :: x2 :: tl2) ++ '}' :: rest =
          printString x.1 ++ (':' :: (printObj x.2 ++
            (',' :: (printEntries (x2 :: tl2) ++ '}' :: rest)))) := by
        show ((printString x.1 ++ ':' :: printObj x.2) ++
          ',' :: printEntries (x2 :: tl2)) ++ '}' :: rest = _
        rw [List.append_assoc, List.append_assoc]
        rfl
      have hps : parseString (printString x.1 ++ (':' :: (printObj x.2 ++
          (',' :: (printEntries (x2 :: tl2) ++ '}' :: rest))))) =
          some (x.1, ':' :: (printObj x.2 ++
            (',' :: (printEntries (x2 :: tl2) ++ '}' :: rest)))) :=
        parseString_print _ _ (okStr_no_quote _ hokx.1)
      have hsk1 : skipWs (':' :: (printObj x.2 ++
          (',' :: (printEntries (x2 :: tl2) ++ '}' :: rest)))) =
          ':' :: (printObj x.2 ++
            (',' :: (printEntries (x2 :: tl2) ++ '}' :: rest))) :=
        skipWs_cons_not _ _ (by decide)
      have hpo : parseObj (fuel + 1) (printObj x.2 ++
          (',' :: (printEntries (x2 :: tl2) ++ '}' :: rest))) =
          some (x.2, ',' :: (printEntries (x2 :: tl2) ++ '}' :: rest)) :=
        parseObj_print x.2 _ (fuel + 1) hokx.2 hxfuel
      have hsk2 : skipWs (',' :: (printEntries (x2 :: tl2) ++ '}' :: rest)) =
          ',' :: (printEntries (x2 :: tl2) ++ '}' :: rest) :=
        skipWs_cons_not _ _ (by decide)
      have hih := ih rest fuel (by simp) hoktl
        (by simpa using hfuelE)
        (by
          intro e he
          have := hfuelO e (List.mem_cons_of_mem x he)
          simp only [List.length_cons] at this ⊢
          omega)
      rw [hcs]
      show parseEntriesAux (fuel + 1) _ = _
      simp only [parseEntriesAux, skipWs_printString, hps, hsk1, hpo, hsk2,
        List.head?_cons, List.tail_cons, hih]
      simp

theorem parseStore_print (st : ResultSet) (rest : List Char) (fuel : Nat)
    (hok : okStore st = true) (hfuelE : st.length ≤ fuel)
    (hfuelO : ∀ e ∈ st, e.2.length + st.length ≤ fuel + 1) :
    parseStore fuel (printStore st ++ rest) = some (st, rest) := by
  have hcs : printStore st ++ rest =
      '{' :: (printEntries st ++ '}' :: rest) := by
    show ('{' :: (printEntries st ++ ['}'])) ++ rest = _
    rw [List.cons_append, List.append_assoc]
    rfl
  rw [hcs]
  rcases st with _ | ⟨x, tl⟩
  · show parseStore fuel ('{' :: ('}' :: rest)) = _
    simp only [parseStore, skipWs_cons_not '{' _ (by decide),
      skipWs_cons_not '}' _ (by decide), List.head?_cons, List.tail_cons]
    simp
  · have hfh : ∃ t, printEntries (x :: tl) ++ '}' :: rest = '"' :: t := by
      rcases tl with _ | ⟨x2, tl2⟩
      · exact ⟨_, rfl⟩
      · exact ⟨_, rfl⟩
    obtain ⟨t, hft⟩ := hfh
    simp only [parseStore, skipWs_cons_not '{' _ (by decide),
      List.head?_cons, List.tail_cons, hft,
      skipWs_cons_not '"' _ (by decide)]
    rw [← hft, parseEntriesAux_print (x :: tl) rest fuel (by simp) hok
      hfuelE hfuelO]
    simp

theorem load_save (st : ResultSet) (hok : okStore st = true) :
    load (save_results st) = some st := by
  have hE : st.length ≤ (printStore st).length + 1 := by
    have h1 := length_le_printEntries st
    simp only [printStore, List.length_cons, List.length_append,
      List.length_singleton]
    omega
  have hO : ∀ e ∈ st, e.2.length + st.length ≤
      ((printStore st).length + 1) + 1 := by
    intro e he
    have h1 := entry_bound st e he
    simp only [printStore, List.length_cons, List.length_append,
      List.length_singleton]
    omega
  have hps := parseStore_print st [] ((printStore st).length + 1) hok hE hO
  rw [List.append_nil] at hps
  show load (printStore st) = some st
  unfold load
  rw [show (printStore st).length + 1 = (printStore st).length + 1 from rfl,
    hps]
  rfl
end Store

namespace Store

/-- C8: serializing the result store to the persisted report and loading
that report back reconstructs the result set exactly — the same result
names and the same field values for each named record — for every store
whose strings are the escape-free kind `save_results` actually writes. -/
theorem store_roundtrip (st : ResultSet) (hok : okStore st = true) :
    load (save_results st) = some st :=
  load_save st hok

/-- Witness: a concrete three-record store round-trips to itself. -/
theorem store_roundtrip_witness :
    okStore sampleStore = true ∧
    load (save_results sampleStore) = some sampleStore :=
  ⟨by decide, store_roundtrip sampleStore (by decide)⟩

end Store
